import Mathlib

/-!
Verification of the Royston–Parmar spline-model replication
(`replications/Royston_Parmar_2002.py`).

The development embeds the mathematical core of the file — the restricted
cubic spline basis (`SplineFitter.relu`, `SplineFitter.basis`), the three
cumulative-hazard model variants (`PHSplineFitter`, `POSplineFitter`,
`AltWeibullFitter`) and their scipy solver configuration — as functions over
the real numbers.  Arrays are embedded as functions `Fin m → ℝ`; the numpy
operations involved (`exp`, `log`, `log1p`, `maximum`, `dot`, `*`, `+`) act
elementwise or as a row-by-row dot product, so the embedding evaluates the
hazard per subject `i` of a design matrix with `m` rows.
-/

namespace RoystonParmar

open Real Filter Topology

noncomputable section

/-- `SplineFitter.relu`: `np.maximum(0, x)`. -/
def relu (x : ℝ) : ℝ := max 0 x

/-- `SplineFitter.basis(self, x, knot, min_knot, max_knot)`.  The source binds
`lambda_ = (max_knot - knot) / (max_knot - min_knot)` and returns
`relu(x - knot) ** 3 - (lambda_ * relu(x - min_knot) ** 3 + (1 - lambda_) * relu(x - max_knot) ** 3)`;
the binding is inlined here. -/
def basis (x knot min_knot max_knot : ℝ) : ℝ :=
  relu (x - knot) ^ 3 -
    ((max_knot - knot) / (max_knot - min_knot) * relu (x - min_knot) ^ 3 +
      (1 - (max_knot - knot) / (max_knot - min_knot)) * relu (x - max_knot) ^ 3)

/-- Row-by-row dot product `np.dot(Xs["beta_"], params["beta_"])`, one row. -/
def dot {n : ℕ} (row beta_ : Fin n → ℝ) : ℝ := ∑ j, row j * beta_ j

namespace PHSplineFitter

/-- `PHSplineFitter.KNOTS = [0.1972, 1.769, 6.728]`. -/
def KNOTS : List ℝ := [0.1972, 1.769, 6.728]

/-- `PHSplineFitter._cumulative_hazard(self, params, T, Xs)`:
`exp_Xbeta * np.exp(phi1_ * lT + phi2_ * basis(lT, log(KNOTS[1]), log(KNOTS[0]), log(KNOTS[-1])))`
with `exp_Xbeta = np.exp(np.dot(Xs["beta_"], params["beta_"]))` and `lT = np.log(T)`,
evaluated at subject `i`. -/
def cumulative_hazard {m n : ℕ} (beta_ : Fin n → ℝ) (phi1_ phi2_ : ℝ)
    (T : Fin m → ℝ) (Xs : Fin m → Fin n → ℝ) : Fin m → ℝ := fun i =>
  Real.exp (dot (Xs i) beta_) *
    Real.exp (phi1_ * Real.log (T i) +
      phi2_ * basis (Real.log (T i)) (Real.log (KNOTS.getD 1 0))
        (Real.log (KNOTS.getD 0 0)) (Real.log (KNOTS.getLastD 0)))

end PHSplineFitter

namespace POSplineFitter

/-- `POSplineFitter.KNOTS = [0.1972, 1.769, 6.728]`. -/
def KNOTS : List ℝ := [0.1972, 1.769, 6.728]

/-- `POSplineFitter._cumulative_hazard(self, params, T, Xs)`:
`np.log1p(np.exp(Xbeta + (phi1_ * lT + phi2_ * basis(lT, log(KNOTS[1]), log(KNOTS[0]), log(KNOTS[-1])))))`
with `Xbeta = np.dot(Xs["beta_"], params["beta_"])` and `lT = np.log(T)`,
evaluated at subject `i` (`np.log1p z = log (1 + z)`). -/
def cumulative_hazard {m n : ℕ} (beta_ : Fin n → ℝ) (phi1_ phi2_ : ℝ)
    (T : Fin m → ℝ) (Xs : Fin m → Fin n → ℝ) : Fin m → ℝ := fun i =>
  Real.log (1 +
    Real.exp (dot (Xs i) beta_ +
      (phi1_ * Real.log (T i) +
        phi2_ * basis (Real.log (T i)) (Real.log (KNOTS.getD 1 0))
          (Real.log (KNOTS.getD 0 0)) (Real.log (KNOTS.getLastD 0)))))

end POSplineFitter

namespace AltWeibullFitter

/-- `AltWeibullFitter._cumulative_hazard(self, params, T, Xs)`:
`exp_Xbeta * np.exp(phi1_ * lT)` with `exp_Xbeta = np.exp(np.dot(Xs["beta_"], params["beta_"]))`
and `lT = np.log(T)`, evaluated at subject `i`. -/
def cumulative_hazard {m n : ℕ} (beta_ : Fin n → ℝ) (phi1_ : ℝ)
    (T : Fin m → ℝ) (Xs : Fin m → Fin n → ℝ) : Fin m → ℝ := fun i =>
  Real.exp (dot (Xs i) beta_) * Real.exp (phi1_ * Real.log (T i))

end AltWeibullFitter

/-- The PH-spline cumulative hazard as the spec writes it:
`exp(X·beta_) · exp(phi1_·log T + phi2_·basis(log T, log 1.769, log 0.1972, log 6.728))`,
the spline basis taken at the log-transformed published knots. -/
def PH_spec_hazard {m n : ℕ} (beta_ : Fin n → ℝ) (phi1_ phi2_ : ℝ)
    (T : Fin m → ℝ) (Xs : Fin m → Fin n → ℝ) : Fin m → ℝ := fun i =>
  Real.exp (dot (Xs i) beta_) *
    Real.exp (phi1_ * Real.log (T i) +
      phi2_ * basis (Real.log (T i)) (Real.log 1.769) (Real.log 0.1972) (Real.log 6.728))

/-- The PO-spline cumulative hazard as the spec writes it:
`log(1 + exp(X·beta_ + phi1_·log T + phi2_·basis_term))` with the same basis
term and knots as the PH-spline variant. -/
def PO_spec_hazard {m n : ℕ} (beta_ : Fin n → ℝ) (phi1_ phi2_ : ℝ)
    (T : Fin m → ℝ) (Xs : Fin m → Fin n → ℝ) : Fin m → ℝ := fun i =>
  Real.log (1 +
    Real.exp (dot (Xs i) beta_ + phi1_ * Real.log (T i) +
      phi2_ * basis (Real.log (T i)) (Real.log 1.769) (Real.log 0.1972) (Real.log 6.728)))

/-- The first derivative of `basis x knot min_knot max_knot` with respect to
`x`: differentiating each `relu (x - c) ^ 3` term gives `3 * relu (x - c) ^ 2`. -/
def basisDeriv (knot min_knot max_knot x : ℝ) : ℝ :=
  3 * relu (x - knot) ^ 2 -
    ((max_knot - knot) / (max_knot - min_knot) * (3 * relu (x - min_knot) ^ 2) +
      (1 - (max_knot - knot) / (max_knot - min_knot)) * (3 * relu (x - max_knot) ^ 2))

/-!
The scipy solver configuration each fitter class declares.  A fitter's
`_scipy_fit_options` is `some opts` when the class (or the `SplineFitter`
mixin it inherits from) sets the attribute, and `none` when the class leaves
it to the external `ParametricRegressionFitter` default.
-/

/-- `SplineFitter._scipy_fit_method = "SLSQP"`. -/
def SplineFitter.scipy_fit_method : String := "SLSQP"

/-- `SplineFitter._scipy_fit_options`: the dict with the single entry
`ftol = 1e-12`. -/
def SplineFitter.scipy_fit_options : Option (List (String × ℝ)) :=
  some [("ftol", 1e-12)]

/-- `PHSplineFitter` inherits `_scipy_fit_method` from `SplineFitter`. -/
def PHSplineFitter.scipy_fit_method : String := SplineFitter.scipy_fit_method

/-- `PHSplineFitter` inherits `_scipy_fit_options` from `SplineFitter`. -/
def PHSplineFitter.scipy_fit_options : Option (List (String × ℝ)) :=
  SplineFitter.scipy_fit_options

/-- `POSplineFitter` inherits `_scipy_fit_method` from `SplineFitter`. -/
def POSplineFitter.scipy_fit_method : String := SplineFitter.scipy_fit_method

/-- `POSplineFitter` inherits `_scipy_fit_options` from `SplineFitter`. -/
def POSplineFitter.scipy_fit_options : Option (List (String × ℝ)) :=
  SplineFitter.scipy_fit_options

/-- `AltWeibullFitter._scipy_fit_method = "SLSQP"` (set directly on the class). -/
def AltWeibullFitter.scipy_fit_method : String := "SLSQP"

/-- `AltWeibullFitter` sets no `_scipy_fit_options`: the class body declares
only `_fitted_parameter_names`, `_scipy_fit_method` and `_KNOWN_MODEL`, so the
attribute stays at the external `ParametricRegressionFitter` default. -/
def AltWeibullFitter.scipy_fit_options : Option (List (String × ℝ)) := none

/-- A constructed spline model carries only its knot list: the classes hold no
other per-instance state of their own. -/
structure SplineModel where
  knots : List ℝ

/-- Construction of a spline fitter with a given knot configuration (the knots
are supplied by the `KNOTS` class attribute, which a subclass may override).
Neither `SplineFitter` nor the classes deriving from it define an
`__init__` that inspects the knots, so construction performs no validation
and always succeeds. -/
def PHSplineFitter.construct (knots : List ℝ) : Except String SplineModel :=
  Except.ok ⟨knots⟩

/-!
Helper lemmas about `relu` and `basis`, shared by several claim theorems.
-/

theorem relu_of_nonpos {z : ℝ} (h : z ≤ 0) : relu z = 0 := max_eq_left h

theorem relu_of_nonneg {z : ℝ} (h : 0 ≤ z) : relu z = z := max_eq_right h

/-- Below the smallest knot all three `relu` arguments are non-positive, so the
basis vanishes. -/
theorem basis_eq_zero_of_le {x knot min_knot max_knot : ℝ}
    (h1 : min_knot < knot) (h2 : knot < max_knot) (hx : x ≤ min_knot) :
    basis x knot min_knot max_knot = 0 := by
  have e1 : relu (x - knot) = 0 := relu_of_nonpos (by linarith)
  have e2 : relu (x - min_knot) = 0 := relu_of_nonpos (by linarith)
  have e3 : relu (x - max_knot) = 0 := relu_of_nonpos (by linarith)
  simp [basis, e1, e2, e3]

/-!
Theorems for the claims.
-/

/-- C1: for every parameter vector, every covariate design matrix and every
vector of event times with `T i > 0` for all subjects, both the PH-spline and
the PO-spline cumulative-hazard evaluations are strictly positive at every
subject. -/
theorem claim1_cumulative_hazard_pos {m n : ℕ} (beta_ : Fin n → ℝ) (phi1_ phi2_ : ℝ)
    (T : Fin m → ℝ) (Xs : Fin m → Fin n → ℝ) (hT : ∀ i, 0 < T i) (i : Fin m) :
    0 < PHSplineFitter.cumulative_hazard beta_ phi1_ phi2_ T Xs i ∧
      0 < POSplineFitter.cumulative_hazard beta_ phi1_ phi2_ T Xs i := by
  refine ⟨mul_pos (Real.exp_pos _) (Real.exp_pos _), ?_⟩
  have h1 : (0 : ℝ) <
      Real.exp (dot (Xs i) beta_ +
        (phi1_ * Real.log (T i) +
          phi2_ * basis (Real.log (T i)) (Real.log (POSplineFitter.KNOTS.getD 1 0))
            (Real.log (POSplineFitter.KNOTS.getD 0 0))
            (Real.log (POSplineFitter.KNOTS.getLastD 0)))) := Real.exp_pos _
  exact Real.log_pos (by linarith)

/-- C2: for every parameter vector, design matrix and strictly positive event
times, the PH-spline cumulative hazard equals
`exp(X·beta_)·exp(phi1_·log T + phi2_·basis(log T, log 1.769, log 0.1972, log 6.728))`:
the spline basis is evaluated at the log-transformed published knots
`0.1972`, `1.769`, `6.728`. -/
theorem claim2_PH_hazard_formula {m n : ℕ} (beta_ : Fin n → ℝ) (phi1_ phi2_ : ℝ)
    (T : Fin m → ℝ) (Xs : Fin m → Fin n → ℝ) (hT : ∀ i, 0 < T i) :
    PHSplineFitter.cumulative_hazard beta_ phi1_ phi2_ T Xs =
      PH_spec_hazard beta_ phi1_ phi2_ T Xs := rfl

/-- Witness for C2 at a concrete one-subject, one-covariate input. -/
theorem claim2_PH_hazard_formula_witness :
    PHSplineFitter.cumulative_hazard (fun _ : Fin 1 => (1 : ℝ)) 2 3
        (fun _ : Fin 1 => (5 : ℝ)) (fun _ _ => (1 : ℝ)) =
      PH_spec_hazard (fun _ : Fin 1 => (1 : ℝ)) 2 3
        (fun _ : Fin 1 => (5 : ℝ)) (fun _ _ => (1 : ℝ)) :=
  claim2_PH_hazard_formula (fun _ => 1) 2 3 (fun _ => 5) (fun _ _ => 1)
    (fun _ => by norm_num)

/-- C3: for every parameter vector, design matrix and strictly positive event
times, the PO-spline cumulative hazard equals
`log(1 + exp(X·beta_ + phi1_·log T + phi2_·basis_term))` with the same basis
term and knots as the PH-spline variant: the softplus (`log1p ∘ exp`) link
replaces the pure exponential. -/
theorem claim3_PO_hazard_formula {m n : ℕ} (beta_ : Fin n → ℝ) (phi1_ phi2_ : ℝ)
    (T : Fin m → ℝ) (Xs : Fin m → Fin n → ℝ) (hT : ∀ i, 0 < T i) :
    POSplineFitter.cumulative_hazard beta_ phi1_ phi2_ T Xs =
      PO_spec_hazard beta_ phi1_ phi2_ T Xs := by
  funext i
  norm_num [POSplineFitter.cumulative_hazard, PO_spec_hazard, POSplineFitter.KNOTS,
    add_assoc]

/-- Witness for C3 at a concrete one-subject, one-covariate input. -/
theorem claim3_PO_hazard_formula_witness :
    POSplineFitter.cumulative_hazard (fun _ : Fin 1 => (1 : ℝ)) 2 3
        (fun _ : Fin 1 => (5 : ℝ)) (fun _ _ => (1 : ℝ)) =
      PO_spec_hazard (fun _ : Fin 1 => (1 : ℝ)) 2 3
        (fun _ : Fin 1 => (5 : ℝ)) (fun _ _ => (1 : ℝ)) :=
  claim3_PO_hazard_formula (fun _ => 1) 2 3 (fun _ => 5) (fun _ _ => 1)
    (fun _ => by norm_num)

/-- C6: with `phi2_ = 0` the PH-spline cumulative hazard coincides with the
Alt-Weibull cumulative hazard at the same `beta_`, `phi1_`, and as
`phi2_ → 0` the PH-spline value tends to the Alt-Weibull value at every
subject. -/
theorem claim6_PH_reduces_to_AltWeibull {m n : ℕ} (beta_ : Fin n → ℝ) (phi1_ : ℝ)
    (T : Fin m → ℝ) (Xs : Fin m → Fin n → ℝ) (hT : ∀ i, 0 < T i) (i : Fin m) :
    PHSplineFitter.cumulative_hazard beta_ phi1_ 0 T Xs i =
        AltWeibullFitter.cumulative_hazard beta_ phi1_ T Xs i ∧
      Tendsto (fun phi2_ => PHSplineFitter.cumulative_hazard beta_ phi1_ phi2_ T Xs i)
        (𝓝 0) (𝓝 (AltWeibullFitter.cumulative_hazard beta_ phi1_ T Xs i)) := by
  have heq : PHSplineFitter.cumulative_hazard beta_ phi1_ 0 T Xs i =
      AltWeibullFitter.cumulative_hazard beta_ phi1_ T Xs i := by
    simp [PHSplineFitter.cumulative_hazard, AltWeibullFitter.cumulative_hazard]
  refine ⟨heq, ?_⟩
  have hc : Continuous
      (fun phi2_ : ℝ => PHSplineFitter.cumulative_hazard beta_ phi1_ phi2_ T Xs i) := by
    simp only [PHSplineFitter.cumulative_hazard]
    exact continuous_const.mul
      ((continuous_const.add (continuous_id.mul continuous_const)).rexp)
  have := hc.tendsto 0
  rwa [heq] at this

/-- Witness for C6 at a concrete one-subject, one-covariate input. -/
theorem claim6_PH_reduces_to_AltWeibull_witness :
    PHSplineFitter.cumulative_hazard (fun _ : Fin 1 => (1 : ℝ)) 2 0
        (fun _ : Fin 1 => (3 : ℝ)) (fun _ _ => (1 : ℝ)) 0 =
        AltWeibullFitter.cumulative_hazard (fun _ : Fin 1 => (1 : ℝ)) 2
          (fun _ : Fin 1 => (3 : ℝ)) (fun _ _ => (1 : ℝ)) 0 ∧
      Tendsto
        (fun phi2_ => PHSplineFitter.cumulative_hazard (fun _ : Fin 1 => (1 : ℝ)) 2 phi2_
          (fun _ : Fin 1 => (3 : ℝ)) (fun _ _ => (1 : ℝ)) 0)
        (𝓝 0)
        (𝓝 (AltWeibullFitter.cumulative_hazard (fun _ : Fin 1 => (1 : ℝ)) 2
          (fun _ : Fin 1 => (3 : ℝ)) (fun _ _ => (1 : ℝ)) 0)) :=
  claim6_PH_reduces_to_AltWeibull (fun _ => 1) 2 (fun _ => 3) (fun _ _ => 1)
    (fun _ => by norm_num) 0

/-- Witness for C1 at a concrete one-subject, one-covariate input. -/
theorem claim1_cumulative_hazard_pos_witness :
    0 < PHSplineFitter.cumulative_hazard (fun _ : Fin 1 => (0 : ℝ)) 0 0
        (fun _ : Fin 1 => (1 : ℝ)) (fun _ _ => (0 : ℝ)) 0 ∧
      0 < POSplineFitter.cumulative_hazard (fun _ : Fin 1 => (0 : ℝ)) 0 0
        (fun _ : Fin 1 => (1 : ℝ)) (fun _ _ => (0 : ℝ)) 0 :=
  claim1_cumulative_hazard_pos (fun _ => 0) 0 0 (fun _ => 1) (fun _ _ => 0)
    (fun _ => one_pos) 0

/-- C4: for every real `x` and every knot triple with `min_knot < max_knot`,
the (total) basis function equals
`relu(x − knot)³ − [λ·relu(x − min_knot)³ + (1 − λ)·relu(x − max_knot)³]`
with `λ = (max_knot − knot)/(max_knot − min_knot)` and `relu z = max 0 z`,
and over an array of `x` values the computation is elementwise. -/
theorem claim4_basis_formula (x knot min_knot max_knot : ℝ) (h : min_knot < max_knot) :
    basis x knot min_knot max_knot =
        relu (x - knot) ^ 3 -
          ((max_knot - knot) / (max_knot - min_knot) * relu (x - min_knot) ^ 3 +
            (1 - (max_knot - knot) / (max_knot - min_knot)) * relu (x - max_knot) ^ 3) ∧
      ∀ xs : List ℝ,
        xs.map (fun y => basis y knot min_knot max_knot) =
          xs.map (fun y =>
            relu (y - knot) ^ 3 -
              ((max_knot - knot) / (max_knot - min_knot) * relu (y - min_knot) ^ 3 +
                (1 - (max_knot - knot) / (max_knot - min_knot)) * relu (y - max_knot) ^ 3)) :=
  ⟨rfl, fun _ => rfl⟩

/-- Witness for C4 at a concrete input. -/
theorem claim4_basis_formula_witness :
    basis 2 1 0 3 =
        relu (2 - 1) ^ 3 -
          ((3 - 1) / (3 - 0) * relu (2 - 0) ^ 3 +
            (1 - (3 - 1) / (3 - 0)) * relu (2 - 3) ^ 3) ∧
      ∀ xs : List ℝ,
        xs.map (fun y => basis y 1 0 3) =
          xs.map (fun y =>
            relu (y - 1) ^ 3 -
              ((3 - 1) / (3 - 0) * relu (y - 0) ^ 3 +
                (1 - (3 - 1) / (3 - 0)) * relu (y - 3) ^ 3)) :=
  claim4_basis_formula 2 1 0 3 (by norm_num)

/-- C10: for every knot triple with `min_knot < knot < max_knot` and every
`x ≤ min_knot`, the basis vanishes exactly (all three `relu` arguments are
non-positive); in particular, for event times at or below the smallest knot
`0.1972` the spline term contributes nothing to the PH-spline cumulative
hazard, which then coincides with the Alt-Weibull cumulative hazard. -/
theorem claim10_basis_vanishes_below_min_knot {m n : ℕ}
    (knot min_knot max_knot x : ℝ)
    (h1 : min_knot < knot) (h2 : knot < max_knot) (hx : x ≤ min_knot)
    (beta_ : Fin n → ℝ) (phi1_ phi2_ : ℝ) (T : Fin m → ℝ) (Xs : Fin m → Fin n → ℝ)
    (i : Fin m) (hT0 : 0 < T i) (hTle : T i ≤ 0.1972) :
    basis x knot min_knot max_knot = 0 ∧
      PHSplineFitter.cumulative_hazard beta_ phi1_ phi2_ T Xs i =
        AltWeibullFitter.cumulative_hazard beta_ phi1_ T Xs i := by
  refine ⟨basis_eq_zero_of_le h1 h2 hx, ?_⟩
  have hb : basis (Real.log (T i)) (Real.log (PHSplineFitter.KNOTS.getD 1 0))
      (Real.log (PHSplineFitter.KNOTS.getD 0 0))
      (Real.log (PHSplineFitter.KNOTS.getLastD 0)) = 0 := by
    have l01 : Real.log (PHSplineFitter.KNOTS.getD 0 0) <
        Real.log (PHSplineFitter.KNOTS.getD 1 0) := by
      show Real.log 0.1972 < Real.log 1.769
      exact Real.log_lt_log (by norm_num) (by norm_num)
    have l12 : Real.log (PHSplineFitter.KNOTS.getD 1 0) <
        Real.log (PHSplineFitter.KNOTS.getLastD 0) := by
      show Real.log 1.769 < Real.log 6.728
      exact Real.log_lt_log (by norm_num) (by norm_num)
    have hle : Real.log (T i) ≤ Real.log (PHSplineFitter.KNOTS.getD 0 0) := by
      show Real.log (T i) ≤ Real.log 0.1972
      exact Real.log_le_log hT0 hTle
    exact basis_eq_zero_of_le l01 l12 hle
  simp only [PHSplineFitter.cumulative_hazard, AltWeibullFitter.cumulative_hazard]
  rw [hb, mul_zero, add_zero]

/-- Witness for C10 at a concrete knot triple and one-subject input. -/
theorem claim10_basis_vanishes_below_min_knot_witness :
    basis 0.3 1 0.5 2 = 0 ∧
      PHSplineFitter.cumulative_hazard (fun _ : Fin 1 => (1 : ℝ)) 2 3
          (fun _ : Fin 1 => (0.1 : ℝ)) (fun _ _ => (1 : ℝ)) 0 =
        AltWeibullFitter.cumulative_hazard (fun _ : Fin 1 => (1 : ℝ)) 2
          (fun _ : Fin 1 => (0.1 : ℝ)) (fun _ _ => (1 : ℝ)) 0 :=
  claim10_basis_vanishes_below_min_knot 1 0.5 2 0.3 (by norm_num) (by norm_num)
    (by norm_num) (fun _ => 1) 2 3 (fun _ => 0.1) (fun _ _ => 1) 0
    (by norm_num) (by norm_num)

/-- At the interior knot on the log scale, only the `relu (x - knot)` and
`relu (x - max_knot)` terms vanish; the `relu (x - min_knot)` term does not,
leaving `-λ·(log 1.769 − log 0.1972)³`. -/
theorem basis_at_interior_knot :
    basis (Real.log 1.769) (Real.log 1.769) (Real.log 0.1972) (Real.log 6.728) =
      -((Real.log 6.728 - Real.log 1.769) / (Real.log 6.728 - Real.log 0.1972)) *
        (Real.log 1.769 - Real.log 0.1972) ^ 3 := by
  have h01 : Real.log 0.1972 < Real.log 1.769 :=
    Real.log_lt_log (by norm_num) (by norm_num)
  have h12 : Real.log 1.769 < Real.log 6.728 :=
    Real.log_lt_log (by norm_num) (by norm_num)
  have e1 : relu (Real.log 1.769 - Real.log 1.769) = 0 := by
    rw [sub_self]
    exact relu_of_nonpos le_rfl
  have e2 : relu (Real.log 1.769 - Real.log 0.1972) =
      Real.log 1.769 - Real.log 0.1972 := relu_of_nonneg (by linarith)
  have e3 : relu (Real.log 1.769 - Real.log 6.728) = 0 := relu_of_nonpos (by linarith)
  simp only [basis, e1, e2, e3]
  ring

/-- The basis value at the interior knot is strictly negative. -/
theorem basis_at_interior_knot_neg :
    basis (Real.log 1.769) (Real.log 1.769) (Real.log 0.1972) (Real.log 6.728) < 0 := by
  have h01 : Real.log 0.1972 < Real.log 1.769 :=
    Real.log_lt_log (by norm_num) (by norm_num)
  have h12 : Real.log 1.769 < Real.log 6.728 :=
    Real.log_lt_log (by norm_num) (by norm_num)
  have hlam : 0 < (Real.log 6.728 - Real.log 1.769) / (Real.log 6.728 - Real.log 0.1972) :=
    div_pos (by linarith) (by linarith)
  have hc : 0 < (Real.log 1.769 - Real.log 0.1972) ^ 3 := pow_pos (by linarith) 3
  rw [basis_at_interior_knot]
  have := mul_pos hlam hc
  linarith

/-- C7 counterexample: with knots `0.1972, 1.769, 6.728`, the basis evaluated
at the interior knot on the log scale,
`basis(log 1.769, log 1.769, log 0.1972, log 6.728)`, is NOT equal to 0. -/
theorem claim7_counterexample :
    basis (Real.log 1.769) (Real.log 1.769) (Real.log 0.1972) (Real.log 6.728) ≠ 0 :=
  ne_of_lt basis_at_interior_knot_neg

/-- C7 amended: with knots `0.1972, 1.769, 6.728`, the basis evaluated at the
interior knot on the log scale equals
`−((log 6.728 − log 1.769)/(log 6.728 − log 0.1972))·(log 1.769 − log 0.1972)³`,
a strictly negative value (only the `relu(x − knot)` and `relu(x − max_knot)`
terms vanish there). -/
theorem claim7_amended_interior_value :
    basis (Real.log 1.769) (Real.log 1.769) (Real.log 0.1972) (Real.log 6.728) =
        -((Real.log 6.728 - Real.log 1.769) / (Real.log 6.728 - Real.log 0.1972)) *
          (Real.log 1.769 - Real.log 0.1972) ^ 3 ∧
      basis (Real.log 1.769) (Real.log 1.769) (Real.log 0.1972) (Real.log 6.728) < 0 :=
  ⟨basis_at_interior_knot, basis_at_interior_knot_neg⟩

/-- `relu` is continuous. -/
theorem continuous_relu : Continuous relu := continuous_const.max continuous_id

/-- `fun y => relu y ^ 3` is differentiable everywhere, with derivative
`3 * relu y ^ 2`; at `y = 0` the one-sided derivatives `0` and `0` agree. -/
theorem hasDerivAt_relu_cube (z : ℝ) :
    HasDerivAt (fun y => relu y ^ 3) (3 * relu z ^ 2) z := by
  rcases lt_trichotomy z 0 with hz | hz | hz
  · have hev : (fun y : ℝ => relu y ^ 3) =ᶠ[𝓝 z] fun _ => (0 : ℝ) := by
      filter_upwards [Iio_mem_nhds hz] with y hy
      rw [relu_of_nonpos (le_of_lt hy)]
      norm_num
    have h0 : HasDerivAt (fun _ : ℝ => (0 : ℝ)) 0 z := hasDerivAt_const z 0
    have := h0.congr_of_eventuallyEq hev
    simpa [relu_of_nonpos hz.le] using this
  · subst hz
    have hr0 : relu (0 : ℝ) = 0 := relu_of_nonpos le_rfl
    have key : Tendsto (slope (fun y : ℝ => relu y ^ 3) 0) (𝓝[≠] 0) (𝓝 0) := by
      have hev : ∀ᶠ y in 𝓝[≠] (0 : ℝ),
          ‖slope (fun y : ℝ => relu y ^ 3) 0 y‖ ≤ y ^ 2 := by
        filter_upwards [self_mem_nhdsWithin] with y hy
        rcases le_or_lt y 0 with h | h
        · have hs : slope (fun y : ℝ => relu y ^ 3) 0 y = 0 := by
            rw [slope_def_field]
            simp [relu_of_nonpos h, hr0]
          rw [hs]
          simpa using sq_nonneg y
        · have hs : slope (fun y : ℝ => relu y ^ 3) 0 y = y ^ 2 := by
            rw [slope_def_field]
            simp only [relu_of_nonneg h.le, hr0]
            field_simp
            ring
          rw [hs, Real.norm_eq_abs, abs_of_nonneg (sq_nonneg y)]
      have hg : Tendsto (fun y : ℝ => y ^ 2) (𝓝[≠] (0 : ℝ)) (𝓝 0) := by
        have h2 : Tendsto (fun y : ℝ => y ^ 2) (𝓝 (0 : ℝ)) (𝓝 ((0 : ℝ) ^ 2)) :=
          (continuous_pow 2).tendsto 0
        simpa using h2.mono_left nhdsWithin_le_nhds
      exact squeeze_zero_norm' hev hg
    have := hasDerivAt_iff_tendsto_slope.mpr key
    simpa [hr0] using this
  · have hx3 : HasDerivAt (fun y : ℝ => y ^ 3) (3 * z ^ 2) z := by
      simpa using hasDerivAt_pow 3 z
    have hev : (fun y : ℝ => relu y ^ 3) =ᶠ[𝓝 z] fun y => y ^ 3 := by
      filter_upwards [Ioi_mem_nhds hz] with y hy
      rw [relu_of_nonneg (le_of_lt hy)]
    have := hx3.congr_of_eventuallyEq hev
    simpa [relu_of_nonneg hz.le] using this

/-- Shifted version: `fun y => relu (y - c) ^ 3` has derivative
`3 * relu (z - c) ^ 2` at `z`. -/
theorem hasDerivAt_relu_cube_shift (c z : ℝ) :
    HasDerivAt (fun y => relu (y - c) ^ 3) (3 * relu (z - c) ^ 2) z := by
  have h1 : HasDerivAt (fun y : ℝ => y - c) 1 z := (hasDerivAt_id z).sub_const c
  have h2 := (hasDerivAt_relu_cube (z - c)).comp z h1
  simpa using h2

/-- The basis has derivative `basisDeriv` everywhere. -/
theorem hasDerivAt_basis (knot min_knot max_knot x : ℝ) :
    HasDerivAt (fun y => basis y knot min_knot max_knot)
      (basisDeriv knot min_knot max_knot x) x := by
  have h1 := hasDerivAt_relu_cube_shift knot x
  have h2 := (hasDerivAt_relu_cube_shift min_knot x).const_mul
    ((max_knot - knot) / (max_knot - min_knot))
  have h3 := (hasDerivAt_relu_cube_shift max_knot x).const_mul
    (1 - (max_knot - knot) / (max_knot - min_knot))
  have := h1.sub (h2.add h3)
  simpa [basis, basisDeriv] using this

/-- The basis derivative is a continuous function of `x`. -/
theorem continuous_basisDeriv (knot min_knot max_knot : ℝ) :
    Continuous (fun x => basisDeriv knot min_knot max_knot x) := by
  have hk : Continuous fun x : ℝ => relu (x - knot) :=
    continuous_relu.comp (continuous_id.sub continuous_const)
  have hmn : Continuous fun x : ℝ => relu (x - min_knot) :=
    continuous_relu.comp (continuous_id.sub continuous_const)
  have hmx : Continuous fun x : ℝ => relu (x - max_knot) :=
    continuous_relu.comp (continuous_id.sub continuous_const)
  simp only [basisDeriv]
  exact (continuous_const.mul (hk.pow 2)).sub
    ((continuous_const.mul (continuous_const.mul (hmn.pow 2))).add
      (continuous_const.mul (continuous_const.mul (hmx.pow 2))))

/-- Beyond the upper boundary knot the basis is affine in `x`: all three
`relu` terms become their arguments, and in the `λ`-weighted combination the
cubic and quadratic coefficients cancel (using `λ·min_knot + (1−λ)·max_knot = knot`). -/
theorem basis_affine_above {knot min_knot max_knot : ℝ}
    (h1 : min_knot < knot) (h2 : knot < max_knot) :
    ∀ x, max_knot ≤ x → basis x knot min_knot max_knot =
      (3 * (knot ^ 2 - ((max_knot - knot) / (max_knot - min_knot) * min_knot ^ 2 +
          (1 - (max_knot - knot) / (max_knot - min_knot)) * max_knot ^ 2))) * x +
        (-(knot ^ 3) + ((max_knot - knot) / (max_knot - min_knot) * min_knot ^ 3 +
          (1 - (max_knot - knot) / (max_knot - min_knot)) * max_knot ^ 3)) := by
  intro x hx
  have e1 : relu (x - knot) = x - knot := relu_of_nonneg (by linarith)
  have e2 : relu (x - min_knot) = x - min_knot := relu_of_nonneg (by linarith)
  have e3 : relu (x - max_knot) = x - max_knot := relu_of_nonneg (by linarith)
  have hd : max_knot - min_knot ≠ 0 := ne_of_gt (by linarith)
  simp only [basis, e1, e2, e3]
  field_simp
  ring

/-- C5: for every knot triple with `min_knot < knot < max_knot` the basis is
linear beyond the boundary knots — restricted to `x ≤ min_knot` it is affine
in `x` (identically zero), and restricted to `x ≥ max_knot` it is affine in
`x` (the cubic and quadratic terms cancel in the `λ`-weighted combination) —
and the basis is differentiable everywhere with a continuous first
derivative, so value and first derivative are continuous across the boundary
knots. -/
theorem claim5_boundary_linearity (knot min_knot max_knot : ℝ)
    (h1 : min_knot < knot) (h2 : knot < max_knot) :
    (∃ a b : ℝ, ∀ x, x ≤ min_knot → basis x knot min_knot max_knot = a * x + b) ∧
      (∃ a b : ℝ, ∀ x, max_knot ≤ x → basis x knot min_knot max_knot = a * x + b) ∧
      ∃ D : ℝ → ℝ, Continuous D ∧
        ∀ x, HasDerivAt (fun y => basis y knot min_knot max_knot) (D x) x := by
  refine ⟨⟨0, 0, fun x hx => ?_⟩, ⟨_, _, basis_affine_above h1 h2⟩,
    ⟨fun x => basisDeriv knot min_knot max_knot x,
      continuous_basisDeriv knot min_knot max_knot,
      fun x => hasDerivAt_basis knot min_knot max_knot x⟩⟩
  rw [basis_eq_zero_of_le h1 h2 hx]
  ring

/-- Witness for C5 at the concrete knot triple `0 < 1 < 2`. -/
theorem claim5_boundary_linearity_witness :
    (∃ a b : ℝ, ∀ x, x ≤ (0 : ℝ) → basis x 1 0 2 = a * x + b) ∧
      (∃ a b : ℝ, ∀ x, (2 : ℝ) ≤ x → basis x 1 0 2 = a * x + b) ∧
      ∃ D : ℝ → ℝ, Continuous D ∧
        ∀ x, HasDerivAt (fun y => basis y 1 0 2) (D x) x :=
  claim5_boundary_linearity 1 0 2 (by norm_num) (by norm_num)

/-- C8 counterexample: `[1, 1, 1]` is an invalid knot configuration
(`min_knot ≥ interior_knot`), yet construction succeeds and returns the model;
no `InvalidKnotConfiguration` error is raised — indeed no such error exists
anywhere in the code. -/
theorem claim8_counterexample :
    PHSplineFitter.construct [1, 1, 1] = Except.ok ⟨[1, 1, 1]⟩ := rfl

/-- C8 amended: model construction performs no knot validation at all —
for every knot configuration, valid or invalid, construction succeeds and
raises nothing. -/
theorem claim8_amended_no_knot_validation (knots : List ℝ) :
    PHSplineFitter.construct knots = Except.ok ⟨knots⟩ := rfl

/-- C9 counterexample: the Alt-Weibull variant does not configure the
`ftol = 1e-12` convergence tolerance — its `_scipy_fit_options` attribute is
left at the external default, not set to the tolerance dict. -/
theorem claim9_counterexample :
    AltWeibullFitter.scipy_fit_options = none ∧
      AltWeibullFitter.scipy_fit_options ≠ some [("ftol", (1e-12 : ℝ))] :=
  ⟨rfl, by simp [AltWeibullFitter.scipy_fit_options]⟩

/-- C9 amended: the PH-spline and PO-spline variants configure the SLSQP
sequential constrained solver with objective tolerance `ftol = 1e-12`
(inherited from `SplineFitter`); the Alt-Weibull variant configures SLSQP but
sets no tolerance option, leaving the fitting-engine default. -/
theorem claim9_amended_solver_config :
    SplineFitter.scipy_fit_method = "SLSQP" ∧
      SplineFitter.scipy_fit_options = some [("ftol", (1e-12 : ℝ))] ∧
      PHSplineFitter.scipy_fit_method = "SLSQP" ∧
      PHSplineFitter.scipy_fit_options = some [("ftol", (1e-12 : ℝ))] ∧
      POSplineFitter.scipy_fit_method = "SLSQP" ∧
      POSplineFitter.scipy_fit_options = some [("ftol", (1e-12 : ℝ))] ∧
      AltWeibullFitter.scipy_fit_method = "SLSQP" ∧
      AltWeibullFitter.scipy_fit_options = none :=
  ⟨rfl, rfl, rfl, rfl, rfl, rfl, rfl, rfl⟩

end

end RoystonParmar
